import Mathlib

/-!
Verification of the `python-sample` demonstration project
(`redherring.py` and its calling script `main.py`).

The Python source is embedded shallowly:
  * strings are Lean `String`s; Python f-string interpolation of string
    variables is string concatenation;
  * Python `int` is `Int`;
  * Python's true division `/` and `float` arithmetic are modelled twice:
    an exact model over `ℚ` (`calculate_discount`), and a relational
    IEEE-754 binary64 model (`discount_result`) in which every arithmetic
    step rounds to a nearest representable value;
  * a method call on a class instance is modelled as a function from the
    receiver state to a result paired with the post-state
    (`Redherring.greet_person_call`);
  * the module/import structure of the project is reflected by explicit
    lists of module names and exported top-level names.
-/

/-- `def greet(name): return f"Hello, {name}!"` (redherring.py, lines 1-2). -/
def greet (name : String) : String := s!"Hello, {name}!"

/-- `class Redherring` (redherring.py, lines 4-9): holds the single
attribute `self.greeting`, set by `__init__` from its argument. -/
structure Redherring where
  greeting : String

/-- `def greet_person(self, name): return f"{self.greeting}, {name}!"`
(redherring.py, lines 8-9). -/
def Redherring.greet_person (self : Redherring) (name : String) : String :=
  let g := self.greeting
  s!"{g}, {name}!"

/-- A call of the method `greet_person` viewed as a state transformer on the
receiver: the body is a single `return` statement containing no assignment,
so the post-state of the receiver is the pre-state. -/
def Redherring.greet_person_call (self : Redherring) (name : String) :
    String × Redherring :=
  (self.greet_person name, self)

/-- `def calculate_discount(amount, percent): return amount * (percent / 100)`
(redherring.py, lines 12-13), with Python's true division and float
multiplication modelled by exact rational arithmetic. -/
def calculate_discount (amount percent : ℚ) : ℚ :=
  amount * (percent / 100)

/-- `ArrayProcessor.sum_numbers(numbers) = sum(numbers)` (redherring.py,
lines 15-18): Python's builtin `sum` folds `+` over the list from the left,
starting from `0`. -/
def ArrayProcessor.sum_numbers (numbers : List Int) : Int :=
  numbers.foldl (· + ·) 0

/-! ### IEEE-754 binary64 model of the float arithmetic

Python evaluates `amount * (percent / 100)` in `float` (binary64)
arithmetic: `percent / 100` is true division, correctly rounded to a
nearest binary64 value, and the product with `amount` is again correctly
rounded.  We model binary64 values as the rationals `m * 2^e` with
`|m| < 2^53` (the exponent range is unbounded; the values involved here
are far away from binary64 overflow and underflow), and
rounding-to-nearest relationally, leaving the tie-breaking rule
unspecified. -/

/-- `q` is representable as an IEEE-754 binary64 value `m * 2^e`,
`|m| < 2^53` (exponent unbounded: overflow and underflow play no role for
the values considered here). -/
def IsDouble (q : ℚ) : Prop := ∃ m e : ℤ, |m| < 2 ^ 53 ∧ q = (m : ℚ) * 2 ^ e

/-- Round-to-nearest, ties arbitrary: `r` is a representable value at
minimal distance from `x`. -/
def RoundsTo (x r : ℚ) : Prop :=
  IsDouble r ∧ ∀ d : ℚ, IsDouble d → |x - r| ≤ |x - d|

/-- The result of `calculate_discount amount percent` under IEEE-754
binary64 semantics: first `percent / 100` is rounded to a nearest double
`q`, then `amount * q` is rounded to a nearest double `r`.  (`amount` and
`percent` are Python ints converted exactly; `200` and `15` are exactly
representable.) -/
def discount_result (amount percent r : ℚ) : Prop :=
  ∃ q : ℚ, RoundsTo (percent / 100) q ∧ RoundsTo (amount * q) r

/-! ### Module structure of the project

`redherring.py` defines exactly four top-level names; the project consists
of the two modules `main` and `redherring`.  The first statement of
`main.py` is `from greeter import greet, Greeter, calculate_discount,
ArrayProcessor`. -/

/-- The top-level names defined by the module `redherring`
(redherring.py). -/
def redherring_module_names : List String :=
  ["greet", "Redherring", "calculate_discount", "ArrayProcessor"]

/-- The modules present in the project directory. -/
def python_sample_modules : List String := ["main", "redherring"]

/-- The module named by the `from ... import` statement on line 1 of
`main.py`. -/
def main_py_imported_module : String := "greeter"

/-- The names requested by the `from ... import` statement on line 1 of
`main.py`. -/
def main_py_imported_names : List String :=
  ["greet", "Greeter", "calculate_discount", "ArrayProcessor"]

/-- The four lines `main.py` is intended to print (per the spec), built
from the embedded operations: `greet("World")`, `Greeter("Hi")
.greet_person("Alice")`, `calculate_discount(200, 15)` displayed as a
float, and the sum of `[1, 2, 3, 4, 5]` displayed as an int. -/
def intended_output : List String :=
  [greet "World", (Redherring.mk "Hi").greet_person "Alice", "30.0", "15"]

/-- `toString` on a `String` is the identity. -/
lemma toString_string (s : String) : toString s = s := rfl

/-- Appending the empty string on the left is the identity. -/
lemma empty_append_string (s : String) : "" ++ s = s := rfl

/-- Folding `greet_person` calls while discarding results leaves the
receiver unchanged. -/
lemma greet_person_call_foldl (r : Redherring) (names : List String) :
    names.foldl (fun s n => (s.greet_person_call n).2) r = r := by
  induction names generalizing r with
  | nil => rfl
  | cons n ns ih => simp [Redherring.greet_person_call]

/-- `sum_numbers` agrees with the abstract list sum. -/
lemma sum_numbers_eq_sum (l : List Int) : ArrayProcessor.sum_numbers l = l.sum := by
  simp [ArrayProcessor.sum_numbers, List.sum_eq_foldl]

/-! ### Rounding lemmas for the binary64 model

`15 / 100` is not representable in binary64; its unique nearest double is
`5404319552844595 / 2 ^ 55`.  Multiplying by `200` gives
`135107988821114875 / 2 ^ 52 = 30 - 5 / 2 ^ 52`, whose unique nearest
double is exactly `30`.  The two `nearest` lemmas below establish strict
minimality, from which both the rounding facts and their uniqueness
follow. -/

/-- Powers of two are positive in `ℚ`. -/
lemma two_zpow_pos (e : ℤ) : (0 : ℚ) < (2 : ℚ) ^ e := zpow_pos two_pos e

/-- A nonzero integer is at least `1 - c` away from a constant
`c ∈ [0, 1]`. -/
lemma int_away_from_frac (c : ℚ) (h0 : 0 ≤ c) (h1 : c ≤ 1) (j : ℤ)
    (hj : j ≠ 0) : 1 - c ≤ |(j : ℚ) - c| := by
  rcases lt_or_gt_of_ne hj with hneg | hpos
  · have hj1 : (j : ℚ) ≤ -1 := by exact_mod_cast (by omega : j ≤ -1)
    rw [abs_of_nonpos (by linarith)]
    linarith
  · have hj1 : (1 : ℚ) ≤ (j : ℚ) := by exact_mod_cast (by omega : (1 : ℤ) ≤ j)
    rw [abs_of_nonneg (by linarith)]
    linarith

/-- Any double at least `2 ^ c` lies on the grid of multiples of
`2 ^ (c - 52)`. -/
lemma double_on_grid (d : ℚ) (hd : IsDouble d) (c : ℤ)
    (hc : (2 : ℚ) ^ c ≤ d) : ∃ k : ℤ, d = (k : ℚ) * (2 : ℚ) ^ (c - 52) := by
  obtain ⟨m, e, hm, rfl⟩ := hd
  have hepos : (0 : ℚ) < (2 : ℚ) ^ e := two_zpow_pos e
  have hmQ : (m : ℚ) < 2 ^ 53 := by exact_mod_cast (abs_lt.mp hm).2
  have hlt : (2 : ℚ) ^ c < (2 : ℚ) ^ (e + 53) := by
    have h1 : (m : ℚ) * 2 ^ e < 2 ^ 53 * 2 ^ e :=
      mul_lt_mul_of_pos_right hmQ hepos
    have h2 : (2 : ℚ) ^ (e + 53) = 2 ^ 53 * (2 : ℚ) ^ e := by
      rw [zpow_add₀ (by norm_num : (2 : ℚ) ≠ 0)]
      norm_num [mul_comm]
    rw [h2]
    exact lt_of_le_of_lt hc h1
  have hce : c < e + 53 :=
    (zpow_lt_zpow_iff_right₀ (by norm_num : (1 : ℚ) < 2)).mp hlt
  have hnn : 0 ≤ e - (c - 52) := by omega
  refine ⟨m * 2 ^ (e - (c - 52)).toNat, ?_⟩
  have hpow : (2 : ℚ) ^ (e - (c - 52)).toNat * (2 : ℚ) ^ (c - 52) =
      (2 : ℚ) ^ e := by
    rw [← zpow_natCast (2 : ℚ) (e - (c - 52)).toNat, Int.toNat_of_nonneg hnn,
      ← zpow_add₀ (by norm_num : (2 : ℚ) ≠ 0)]
    congr 1
    omega
  push_cast
  rw [mul_assoc, hpow]

/-- Every double other than `5404319552844595 / 2 ^ 55` is strictly
farther from `15 / 100` than it. -/
lemma nearest_to_015 (d : ℚ) (hd : IsDouble d)
    (hne : d ≠ 5404319552844595 / 2 ^ 55) :
    |(15 : ℚ) / 100 - 5404319552844595 / 2 ^ 55| < |(15 : ℚ) / 100 - d| := by
  have habs : |(15 : ℚ) / 100 - 5404319552844595 / 2 ^ 55| =
      1 / 5 * ((2 : ℚ) ^ 55)⁻¹ := by
    rw [abs_of_nonneg (by norm_num)]
    norm_num
  by_cases hbig : (2 : ℚ) ^ (-(3 : ℤ)) ≤ d
  · obtain ⟨k, hk⟩ := double_on_grid d hd (-(3 : ℤ)) hbig
    rw [show (-(3 : ℤ)) - 52 = -(55 : ℤ) from by norm_num] at hk
    have hkne : k ≠ 5404319552844595 := by
      intro h
      apply hne
      rw [hk, h]
      norm_num
    have hx : (15 : ℚ) / 100 - d =
        -(((k - 5404319552844595 : ℤ) : ℚ) - 1 / 5) * (2 : ℚ) ^ (-(55 : ℤ)) := by
      rw [hk, show (15 : ℚ) / 100 =
        (5404319552844595 + 1 / 5) * (2 : ℚ) ^ (-(55 : ℤ)) from by norm_num]
      push_cast
      ring
    have hj : (1 : ℚ) - 1 / 5 ≤ |((k - 5404319552844595 : ℤ) : ℚ) - 1 / 5| :=
      int_away_from_frac (1 / 5) (by norm_num) (by norm_num) _ (by omega)
    rw [habs, hx, abs_mul, abs_neg, abs_of_pos (two_zpow_pos _)]
    calc (1 : ℚ) / 5 * ((2 : ℚ) ^ 55)⁻¹
        < 4 / 5 * (2 : ℚ) ^ (-(55 : ℤ)) := by norm_num
      _ ≤ |((k - 5404319552844595 : ℤ) : ℚ) - 1 / 5| *
            (2 : ℚ) ^ (-(55 : ℤ)) := by
          apply mul_le_mul_of_nonneg_right _ (le_of_lt (two_zpow_pos _))
          linarith
  · push_neg at hbig
    rw [show (2 : ℚ) ^ (-(3 : ℤ)) = 1 / 8 from by norm_num] at hbig
    have h1 : (1 : ℚ) / 40 < (15 : ℚ) / 100 - d := by linarith
    rw [habs]
    calc (1 : ℚ) / 5 * ((2 : ℚ) ^ 55)⁻¹ < 1 / 40 := by norm_num
      _ < (15 : ℚ) / 100 - d := h1
      _ ≤ |(15 : ℚ) / 100 - d| := le_abs_self _

/-- Every double other than `30` is strictly farther from
`200 * (5404319552844595 / 2 ^ 55)` than `30` is. -/
lemma nearest_to_product (d : ℚ) (hd : IsDouble d) (hne : d ≠ 30) :
    |200 * ((5404319552844595 : ℚ) / 2 ^ 55) - 30| <
      |200 * ((5404319552844595 : ℚ) / 2 ^ 55) - d| := by
  have habs : |200 * ((5404319552844595 : ℚ) / 2 ^ 55) - 30| =
      5 * ((2 : ℚ) ^ 52)⁻¹ := by
    rw [abs_of_nonpos (by norm_num)]
    norm_num
  by_cases hbig : (2 : ℚ) ^ (4 : ℤ) ≤ d
  · obtain ⟨k, hk⟩ := double_on_grid d hd 4 hbig
    rw [show (4 : ℤ) - 52 = -(48 : ℤ) from by norm_num] at hk
    have hkne : k ≠ 8444249301319680 := by
      intro h
      apply hne
      rw [hk, h]
      norm_num
    have hx : 200 * ((5404319552844595 : ℚ) / 2 ^ 55) - d =
        -(((k - 8444249301319680 : ℤ) : ℚ) + 5 / 16) *
          (2 : ℚ) ^ (-(48 : ℤ)) := by
      rw [hk, show 200 * ((5404319552844595 : ℚ) / 2 ^ 55) =
        (8444249301319680 - 5 / 16) * (2 : ℚ) ^ (-(48 : ℤ)) from by norm_num]
      push_cast
      ring
    have hj : (1 : ℚ) - 5 / 16 ≤
        |((-(k - 8444249301319680) : ℤ) : ℚ) - 5 / 16| :=
      int_away_from_frac (5 / 16) (by norm_num) (by norm_num) _ (by omega)
    have habs2 : |((-(k - 8444249301319680) : ℤ) : ℚ) - 5 / 16| =
        |((k - 8444249301319680 : ℤ) : ℚ) + 5 / 16| := by
      rw [show ((-(k - 8444249301319680) : ℤ) : ℚ) - 5 / 16 =
        -(((k - 8444249301319680 : ℤ) : ℚ) + 5 / 16) from by push_cast; ring,
        abs_neg]
    rw [habs, hx, abs_mul, abs_neg, abs_of_pos (two_zpow_pos _)]
    calc (5 : ℚ) * ((2 : ℚ) ^ 52)⁻¹
        < 11 / 16 * (2 : ℚ) ^ (-(48 : ℤ)) := by norm_num
      _ ≤ |((k - 8444249301319680 : ℤ) : ℚ) + 5 / 16| *
            (2 : ℚ) ^ (-(48 : ℤ)) := by
          apply mul_le_mul_of_nonneg_right _ (le_of_lt (two_zpow_pos _))
          rw [← habs2]
          linarith
  · push_neg at hbig
    rw [show (2 : ℚ) ^ (4 : ℤ) = 16 from by norm_num] at hbig
    have h29 : (29 : ℚ) < 200 * ((5404319552844595 : ℚ) / 2 ^ 55) := by
      norm_num
    have h1 : (13 : ℚ) < 200 * ((5404319552844595 : ℚ) / 2 ^ 55) - d := by
      linarith
    rw [habs]
    calc (5 : ℚ) * ((2 : ℚ) ^ 52)⁻¹ < 13 := by norm_num
      _ < 200 * ((5404319552844595 : ℚ) / 2 ^ 55) - d := h1
      _ ≤ |200 * ((5404319552844595 : ℚ) / 2 ^ 55) - d| := le_abs_self _

/-- `5404319552844595 / 2 ^ 55` is representable in binary64. -/
lemma isDouble_nearest_015 : IsDouble (5404319552844595 / 2 ^ 55 : ℚ) :=
  ⟨5404319552844595, -(55 : ℤ), by norm_num, by norm_num⟩

/-- `30` is representable in binary64. -/
lemma isDouble_30 : IsDouble (30 : ℚ) := ⟨30, 0, by norm_num, by norm_num⟩

/-- `15 / 100` rounds to `5404319552844595 / 2 ^ 55`. -/
lemma roundsTo_015 : RoundsTo (15 / 100) (5404319552844595 / 2 ^ 55) := by
  refine ⟨isDouble_nearest_015, fun d hd => ?_⟩
  by_cases h : d = 5404319552844595 / 2 ^ 55
  · rw [h]
  · exact le_of_lt (nearest_to_015 d hd h)

/-- `15 / 100` rounds only to `5404319552844595 / 2 ^ 55`. -/
lemma roundsTo_015_unique (q : ℚ) (hq : RoundsTo (15 / 100) q) :
    q = 5404319552844595 / 2 ^ 55 := by
  by_contra hne
  have h1 := nearest_to_015 q hq.1 hne
  have h2 := hq.2 _ isDouble_nearest_015
  linarith

/-- `200 * (5404319552844595 / 2 ^ 55)` rounds to `30`. -/
lemma roundsTo_product : RoundsTo (200 * (5404319552844595 / 2 ^ 55)) 30 := by
  refine ⟨isDouble_30, fun d hd => ?_⟩
  by_cases h : d = 30
  · rw [h]
  · exact le_of_lt (nearest_to_product d hd h)

/-- `200 * (5404319552844595 / 2 ^ 55)` rounds only to `30`. -/
lemma roundsTo_product_unique (r : ℚ)
    (hr : RoundsTo (200 * (5404319552844595 / 2 ^ 55)) r) : r = 30 := by
  by_contra hne
  have h1 := nearest_to_product r hr.1 hne
  have h2 := hr.2 _ isDouble_30
  linarith

/-- C1: for every name string `n`, `greet n` is exactly
`"Hello, " ++ n ++ "!"`; in particular `greet "World" = "Hello, World!"`. -/
theorem greet_formats_name :
    (∀ n : String, greet n = "Hello, " ++ n ++ "!") ∧
      greet "World" = "Hello, World!" := by
  refine ⟨fun n => ?_, by decide⟩
  simp [greet, toString_string]

/-- C2: a `Redherring` constructed with prefix `p`, asked to greet `n`,
returns exactly `p ++ ", " ++ n ++ "!"`; in particular the instance built
with `"Hi"` greets `"Alice"` with `"Hi, Alice!"`. -/
theorem greet_person_formats_prefix_and_name :
    (∀ p n : String, (Redherring.mk p).greet_person n = p ++ ", " ++ n ++ "!") ∧
      (Redherring.mk "Hi").greet_person "Alice" = "Hi, Alice!" := by
  refine ⟨fun p n => ?_, by decide⟩
  simp [Redherring.greet_person, toString_string, empty_append_string]

/-- C3: `sum_numbers` returns the arithmetic sum of its input, `0` on the
empty list, and `15` on `[1, 2, 3, 4, 5]`. -/
theorem sum_numbers_is_sum :
    (∀ l : List Int, ArrayProcessor.sum_numbers l = l.sum) ∧
      ArrayProcessor.sum_numbers [] = 0 ∧
      ArrayProcessor.sum_numbers [1, 2, 3, 4, 5] = 15 :=
  ⟨sum_numbers_eq_sum, by decide, by decide⟩

/-- C4: for non-negative `a` and `p`, `calculate_discount a p` equals
`a * p / 100` (in the exact-arithmetic model of the float computation the
two expressions coincide, so the float result is within rounding tolerance
of `a * p / 100` by construction). -/
theorem calculate_discount_formula (a p : ℚ) (_ha : 0 ≤ a) (_hp : 0 ≤ p) :
    calculate_discount a p = a * p / 100 := by
  unfold calculate_discount; ring

/-- Witness for C4 at `(a, p) = (200, 15)`. -/
theorem calculate_discount_formula_witness :
    calculate_discount 200 15 = 200 * 15 / 100 :=
  calculate_discount_formula 200 15 (by norm_num) (by norm_num)

/-- C5: under IEEE-754 binary64 semantics, `calculate_discount 200 15`
returns exactly the floating-point value `30.0`: `30` is a possible result
of the two correctly-rounded operations, and it is the only one. -/
theorem calculate_discount_200_15_exact_float :
    discount_result 200 15 30 ∧
      ∀ r : ℚ, discount_result 200 15 r → r = 30 := by
  constructor
  · exact ⟨5404319552844595 / 2 ^ 55, roundsTo_015, roundsTo_product⟩
  · rintro r ⟨q, hq, hr⟩
    rw [roundsTo_015_unique q hq] at hr
    exact roundsTo_product_unique r hr

/-- Witness for C5: the uniqueness direction applied to the concrete
result `30`. -/
theorem calculate_discount_200_15_exact_float_witness :
    discount_result 200 15 30 ∧ (30 : ℚ) = 30 :=
  ⟨calculate_discount_200_15_exact_float.1,
    calculate_discount_200_15_exact_float.2 30
      calculate_discount_200_15_exact_float.1⟩

/-- C6: the stored greeting prefix equals the construction argument, and
any sequence of `greet_person` calls leaves the instance (hence the stored
prefix) unchanged. -/
theorem greeting_prefix_immutable :
    (∀ p : String, (Redherring.mk p).greeting = p) ∧
      (∀ (r : Redherring) (names : List String),
        names.foldl (fun s n => (s.greet_person_call n).2) r = r) :=
  ⟨fun _ => rfl, greet_person_call_foldl⟩

/-- C7 (failing run of `main.py`): the module named by the import statement
on line 1 of `main.py` does not exist in the project, and the name
`Greeter` it requests is not among the names `redherring.py` defines — so
the script stops at its first statement and never prints the intended four
lines (which the embedded operations do produce). -/
theorem main_py_import_unresolvable :
    main_py_imported_module ∉ python_sample_modules ∧
      "Greeter" ∈ main_py_imported_names ∧
      "Greeter" ∉ redherring_module_names ∧
      intended_output = ["Hello, World!", "Hi, Alice!", "30.0", "15"] := by
  refine ⟨by decide, by decide, by decide, by decide⟩

/-- C8: each of the four operations is deterministic and mutates no state:
equal inputs (and, for the instance method, receivers with equal stored
prefix) give equal results, and a `greet_person` call returns its receiver
unchanged. -/
theorem operations_deterministic_and_pure :
    (∀ n₁ n₂ : String, n₁ = n₂ → greet n₁ = greet n₂) ∧
      (∀ (r₁ r₂ : Redherring) (n₁ n₂ : String),
        r₁.greeting = r₂.greeting → n₁ = n₂ →
          (r₁.greet_person_call n₁).1 = (r₂.greet_person_call n₂).1 ∧
            (r₁.greet_person_call n₁).2 = r₁) ∧
      (∀ a₁ a₂ p₁ p₂ : ℚ, a₁ = a₂ → p₁ = p₂ →
        calculate_discount a₁ p₁ = calculate_discount a₂ p₂) ∧
      (∀ l₁ l₂ : List Int, l₁ = l₂ →
        ArrayProcessor.sum_numbers l₁ = ArrayProcessor.sum_numbers l₂) := by
  refine ⟨fun n₁ n₂ h => by rw [h], fun r₁ r₂ n₁ n₂ hg hn => ?_,
    fun a₁ a₂ p₁ p₂ ha hp => by rw [ha, hp], fun l₁ l₂ h => by rw [h]⟩
  cases r₁; cases r₂
  cases hg; cases hn
  exact ⟨rfl, rfl⟩

/-- Witness for C8 at concrete inputs. -/
theorem operations_deterministic_and_pure_witness :
    greet "Bob" = greet "Bob" ∧
      ((Redherring.mk "Hi").greet_person_call "Bob").1 =
          ((Redherring.mk "Hi").greet_person_call "Bob").1 ∧
        ((Redherring.mk "Hi").greet_person_call "Bob").2 = Redherring.mk "Hi" ∧
      calculate_discount 200 15 = calculate_discount 200 15 ∧
      ArrayProcessor.sum_numbers [1, 2] = ArrayProcessor.sum_numbers [1, 2] :=
  ⟨operations_deterministic_and_pure.1 "Bob" "Bob" rfl,
    (operations_deterministic_and_pure.2.1 (Redherring.mk "Hi")
        (Redherring.mk "Hi") "Bob" "Bob" rfl rfl).1,
    (operations_deterministic_and_pure.2.1 (Redherring.mk "Hi")
        (Redherring.mk "Hi") "Bob" "Bob" rfl rfl).2,
    operations_deterministic_and_pure.2.2.1 200 200 15 15 rfl rfl,
    operations_deterministic_and_pure.2.2.2 [1, 2] [1, 2] rfl⟩

/-- C9: the free function `greet` is the class operation specialised to the
prefix `"Hello"`. -/
theorem greet_refines_greet_person (n : String) :
    greet n = (Redherring.mk "Hello").greet_person n := by
  simp [greet, Redherring.greet_person, toString_string, empty_append_string]

/-- C10: `sum_numbers` is a monoid homomorphism from list concatenation to
integer addition, and is consequently invariant under permutation. -/
theorem sum_numbers_concat_hom_perm_invariant :
    (∀ xs ys : List Int,
        ArrayProcessor.sum_numbers (xs ++ ys) =
          ArrayProcessor.sum_numbers xs + ArrayProcessor.sum_numbers ys) ∧
      (∀ xs ys : List Int, xs.Perm ys →
        ArrayProcessor.sum_numbers xs = ArrayProcessor.sum_numbers ys) := by
  constructor
  · intro xs ys
    simp [sum_numbers_eq_sum]
  · intro xs ys h
    simp [sum_numbers_eq_sum, h.sum_eq]

/-- Witness for C10 at concrete lists. -/
theorem sum_numbers_concat_hom_perm_invariant_witness :
    ArrayProcessor.sum_numbers ([1, 2] ++ [3]) =
        ArrayProcessor.sum_numbers [1, 2] + ArrayProcessor.sum_numbers [3] ∧
      ArrayProcessor.sum_numbers [1, 2, 3] = ArrayProcessor.sum_numbers [3, 1, 2] :=
  ⟨sum_numbers_concat_hom_perm_invariant.1 [1, 2] [3],
    sum_numbers_concat_hom_perm_invariant.2 [1, 2, 3] [3, 1, 2] (by decide)⟩
